import Mathlib

/-
Verification of the Toady chat-bot framework (mod lifecycle manager, command
dispatch pipeline and permission engine) against its specification.

The JavaScript sources are embedded shallowly: plain objects become
association lists `List (String × _)` (property order preserved, as JS
preserves insertion order), JS strings become `String`, stateful module-level
variables become explicit state records threaded through the functions, and
asynchronous results (promises / node-style callbacks) become `Except` /
`Option` values.  A thrown JS `TypeError` (for example calling a method that
does not exist, or reading a property of `undefined`) is modelled as an
explicit error value.
-/

namespace Toady

/-! ## Shared JavaScript-style helpers -/

/-- JS property lookup on an object modelled as an association list: the first
binding for the key, if any (`undefined` otherwise). -/
def getKey {α : Type} (m : List (String × α)) (k : String) : Option α :=
  (m.find? (fun kv => kv.1 == k)).map Prod.snd

/-- JS property assignment `m[k] = v`: an existing key keeps its position and
gets the new value; a new key is appended (JS objects preserve insertion
order). -/
def setKey {α : Type} (m : List (String × α)) (k : String) (v : α) :
    List (String × α) :=
  match m with
  | [] => [(k, v)]
  | (k0, v0) :: rest =>
    if k0 = k then (k0, v) :: rest else (k0, v0) :: setKey rest k v

/-- JS property deletion `delete m[k]`. -/
def delKey {α : Type} (m : List (String × α)) (k : String) :
    List (String × α) :=
  m.filter (fun kv => kv.1 != k)

/-- `String.prototype.toLowerCase` restricted to the ASCII identifiers and
channel names this program handles. -/
def jsToLower (s : String) : String :=
  ⟨s.data.map Char.toLower⟩

/-- The whitespace class `\s` of JS regexes, restricted to the ASCII
whitespace characters that can occur in IRC messages. -/
def jsIsSpace (c : Char) : Bool :=
  c == ' ' || c == '\t' || c == '\n' || c == '\r' || c == '\x0b' || c == '\x0c'

/-- A JS primitive value, used where the code compares values with `===`. -/
inductive JsPrim where
  | str (s : String)
  | num (n : Int)
deriving DecidableEq, Repr

/-- JS strict equality `===` on primitives: values of different types are
never strictly equal (in particular a regex capture, which is a string, is
never `===` to a number). -/
def jsStrictEq : JsPrim → JsPrim → Bool
  | .str a, .str b => a == b
  | .num a, .num b => a == b
  | _, _ => false

/-! ## Permission table (src/app/coremods/users/authmethods/NickServ.js)

Both the 2013 and the 2015 users mods define the same `PERMS` constant
mapping a permission char (a one-character string; the empty string is a
valid rank) to a record with a human name and an integer level. -/

/-- The `level` field of `PERMS[c]`, or `none` when `PERMS[c]` is
`undefined` (unrecognized permission char). -/
def permLevel : String → Option Int
  | "O" => some 8
  | "S" => some 7
  | "P" => some 6
  | "~" => some 5
  | "&" => some 4
  | "@" => some 3
  | "%" => some 2
  | "+" => some 1
  | "" => some 0
  | _ => none

/-- `permEqualOrGreater` from the 2015 users mod:
`(PERMS[checkPerm] || {level: -1}).level >= PERMS[againstPerm].level`.
An unrecognized `checkPerm` falls back to level `-1`; an unrecognized
`againstPerm` makes `PERMS[againstPerm].level` read a property of
`undefined`, a thrown TypeError, modelled as `none`. -/
def permEqualOrGreater2015 (checkPerm againstPerm : String) : Option Bool :=
  (permLevel againstPerm).map
    (fun la => decide ((permLevel checkPerm).getD (-1) ≥ la))

/-- `permEqualOrGreater` from the 2013 users mod:
`PERMS[checkPerm].level >= PERMS[againstPerm].level`.  Either argument being
unrecognized reads `level` of `undefined`, a thrown TypeError, modelled as
`none`. -/
def permEqualOrGreater2013 (checkPerm againstPerm : String) : Option Bool :=
  match permLevel checkPerm, permLevel againstPerm with
  | some lc, some la => some (decide (lc ≥ la))
  | _, _ => none

/-! ## Permission engine (users mod, 2013 and 2015 versions)

The engine's external collaborators are collected in `UsersEnv`: the
registered accounts (`config.users`, keyed by lowercased nick), the eventual
boolean answer of the auth method's round trip for a (lowercased) nick, and
the chat transport's live channel-membership view (`client.chans`). -/

/-- A thrown JS error inside the permission pipeline. -/
inductive JsError where
  | typeError
  | permCharNotExist (permChar : String)
deriving DecidableEq, Repr

structure UsersEnv where
  /-- `config.users`: lowercased nick to global permission char. -/
  users : List (String × String)
  /-- The boolean the auth method eventually hands back for a lowercased
  nick (the 2013 NickServ method always answers with a boolean). -/
  authed : String → Bool
  /-- `client.chans`: channel name to (nick to channel permission char). -/
  chans : List (String × List (String × String))

/-- `getGlobalPerm` (2013 users mod): the account's perm when the nick is
registered and the auth method confirms it, otherwise null. -/
def getGlobalPerm2013 (env : UsersEnv) (nick : String) : Option String :=
  match getKey env.users (jsToLower nick) with
  | some perm => if env.authed (jsToLower nick) then some perm else none
  | none => none

/-- `getPermOnChannel` (2013 users mod): `client.chanData(channel)` throws on
an unknown channel (caught, treated as null); otherwise
`chanData.users[nick] != undefined ? chanData.users[nick] : null`. -/
def getPermOnChannel2013 (env : UsersEnv) (nick channel : String) :
    Option String :=
  match getKey env.chans channel with
  | some chanUsers => getKey chanUsers nick
  | none => none

/-- `hasPermOnChannel` (2013 users mod).  Note the truthiness test
`else if (perm)`: the empty-string rank (a plain channel member, level 0) is
falsy and is answered with `false` without comparing levels. -/
def hasPermOnChannel2013 (env : UsersEnv) (permChar nick channel : String) :
    Except JsError Bool :=
  match getPermOnChannel2013 env nick channel with
  | some perm =>
    if perm ≠ "" then
      match permEqualOrGreater2013 perm permChar with
      | some b => .ok b
      | none => .error .typeError
    else .ok false
  | none => .ok false

/-- `hasGlobalPerm` (2013 users mod). -/
def hasGlobalPerm2013 (env : UsersEnv) (permChar nick : String) :
    Except JsError Bool :=
  match getGlobalPerm2013 env nick with
  | some perm =>
    match permEqualOrGreater2013 perm permChar with
    | some b => .ok b
    | none => .error .typeError
  | none => .ok false

/-- `hasPermission` (2013 users mod): fail fast on an unrecognized required
rank, then try the channel rank (when a channel was given), then fall back
to the global rank. -/
def hasPermission2013 (env : UsersEnv) (permChar nick : String)
    (channel : Option String) : Except JsError Bool :=
  if (permLevel permChar).isNone then .error (.permCharNotExist permChar)
  else
    match
      (match channel with
       | some c => hasPermOnChannel2013 env permChar nick c
       | none => Except.ok false) with
    | .error e => .error e
    | .ok true => .ok true
    | .ok false =>
      match hasGlobalPerm2013 env permChar nick with
      | .error e => .error e
      | .ok g => .ok g

/-- `hasPermission` from the 2015 users mod.  Its body builds
`Promise.resolve().then(...)` and then invokes `.this(...)` on the resulting
promise; `this` is not a method of Promise, so every invocation throws a
TypeError synchronously, before any permission logic can run.  (The function
was evidently meant to chain `.then`.) -/
def hasPermission2015 (_env : UsersEnv) (_permChar _nick : String)
    (_channel : Option String) : Except JsError Bool :=
  .error .typeError

/-! ## NickServ auth method, 2015 version (pending requests and timers)

Module state: `pendingNicks` maps a lowercased nick to its pending entry
(whose `timeout` field holds the timer created by `setTimeout`), plus the
`type`/`locked` switch flags.  The embedding adds bookkeeping the JS runtime
keeps implicitly: the set of timers that are scheduled and not yet
cleared/fired (`timersActive`), a fresh-timer counter, and the settlement of
each request's promise (`settled`; a promise settles at most once, later
resolve/reject calls are no-ops). -/

/-- The outcome of an authorization round trip. -/
inductive AuthError where
  | timedOut
deriving DecidableEq, Repr

/-- An entry of `pendingNicks`: `{resolve: ..., timeout: <timer>}`. -/
structure PendingEntry where
  timerId : Nat
deriving DecidableEq, Repr

structure NickServState where
  pendingNicks : List (String × PendingEntry)
  timersActive : List Nat
  settled : List (String × Except AuthError Bool)
  nextTimer : Nat
  useStatusCmd : Bool
  locked : Bool
deriving Repr

def nickServInit : NickServState :=
  { pendingNicks := [], timersActive := [], settled := [], nextTimer := 0,
    useStatusCmd := false, locked := false }

/-- First settlement of a promise wins; later settlements are no-ops. -/
def settlePromise (s : List (String × Except AuthError Bool)) (k : String)
    (v : Except AuthError Bool) : List (String × Except AuthError Bool) :=
  if (getKey s k).isSome then s else s ++ [(k, v)]

/-- `isAuthorized` (2015 NickServ): lowercases the nick, stores a pending
entry with a freshly scheduled timeout timer, and sends the query. -/
def isAuthorized2015 (st : NickServState) (nick : String) : NickServState :=
  let lowNick := jsToLower nick
  { st with
    pendingNicks := setKey st.pendingNicks lowNick ⟨st.nextTimer⟩
    timersActive := st.timersActive ++ [st.nextTimer]
    nextTimer := st.nextTimer + 1 }

/-- The `notice` handler of the 2015 NickServ method, in the case where the
text did not match SWITCH_REGEX and `text.match(TYPES[type].regex)` produced
the captures `resNick` and `resCode` (the regex scan itself is taken as
given).  The reply resolves the pending promise with
`res[2] === TYPES[type].success`; `res[2]` is a string capture and `success`
is the number 3, so strict equality is always false.  It then calls
`clearTimeout(pendingNicks.timeout)`: that reads the map's property named
`timeout` — at best another nick's pending *entry object*, not a timer
handle — so no timer is ever cleared. -/
def handleNotice2015 (st : NickServState) (sender resNick resCode : String) :
    NickServState :=
  if jsToLower sender == "nickserv" then
    let r1 := jsToLower resNick
    match getKey st.pendingNicks r1 with
    | some _entry =>
      { st with
        locked := true
        settled := settlePromise st.settled r1
          (.ok (jsStrictEq (.str resCode) (.num 3)))
        pendingNicks := delKey st.pendingNicks r1 }
    | none => st
  else st

/-- The `setTimeout` callback scheduled by `isAuthorized2015` for the request
keyed by `lowNick` with timer `t`; it runs only if the timer is still
scheduled (never cleared so far), deletes the pending entry and *rejects*
the promise with a timeout Error. -/
def fireTimeout2015 (st : NickServState) (lowNick : String) (t : Nat) :
    NickServState :=
  if st.timersActive.contains t then
    { st with
      timersActive := st.timersActive.filter (fun x => x != t)
      pendingNicks := delKey st.pendingNicks lowNick
      settled := settlePromise st.settled lowNick (.error .timedOut) }
  else st

/-- `getGlobalPerm` from the 2015 users mod: for a registered, uncached nick
it chains directly on `authMod.isAuthorized(nick, ...)` with no rejection
handler, so a rejected authorization (for example the timeout) propagates to
the caller.  `authResult` is the settlement of that promise; the returned
pair is (outcome, updated `userCache` list of cached lowercased nicks). -/
def getGlobalPerm2015 (users : List (String × String)) (userCache : List String)
    (authResult : Except AuthError Bool) (nick : String) :
    Except AuthError (Option String) × List String :=
  let lowNick := jsToLower nick
  match getKey users lowNick with
  | some perm =>
    if userCache.contains lowNick then (.ok (some perm), userCache)
    else
      match authResult with
      | .error e => (.error e, userCache)
      | .ok authed =>
        if authed then (.ok (some perm), userCache ++ [lowNick])
        else (.ok none, userCache)
  | none => (.ok none, userCache)

/-! ## Account mutations (2015 users mod) -/

/-- A registered account: `{perm: ..., authMethod?: ...}`. -/
structure UserAccount where
  perm : String
  authMethod : Option String := none
deriving DecidableEq, Repr

/-- The message `client.notice(replyTo, ...)` sent at the end of a mutation
(every path, success or failure, ends in a notice; nothing is thrown out of
the operation). -/
inductive UserNotice where
  | userDeleted (perm nick : String)
  | userSaved (perm nick : String) (isNew : Bool)
  | errNoSuchUser (nick : String)
  | errCantDelete (perm : String)
  | errUserExists (nick : String)
  | errUserNotFound (nick : String)
  | errCantSet (perm : String)
  | errCantModify (perm : String)
  | errNoAuthMethod (authMethod : String)
  | errAuthFault (e : AuthError)
  | errInternal (e : JsError)
deriving DecidableEq, Repr

/-- Result of a mutation: the users map afterwards, whether
`config.save(['users'])` was invoked, and the notice sent to the origin. -/
structure MutationResult where
  users : List (String × UserAccount)
  saved : Bool
  notice : UserNotice
deriving DecidableEq, Repr

/-- `deleteUser` from the 2015 users mod.  `callerPerm` is the settlement of
`getGlobalPerm(execNick)`.  The guard is
`if (!callerPerm || (callerPerm !== 'O' && callerPerm !== 'P'))`: both
halves test the *caller's* perm, so the deletion is allowed for any caller
whose global perm is O or P, regardless of the target's rank. -/
def deleteUser2015 (users : List (String × UserAccount))
    (callerPerm : Except AuthError (Option String)) (targetNick : String) :
    MutationResult :=
  let lowNick := jsToLower targetNick
  match getKey users lowNick with
  | none => ⟨users, false, .errNoSuchUser targetNick⟩
  | some account =>
    match callerPerm with
    | .error e => ⟨users, false, .errAuthFault e⟩
    | .ok cp =>
      if cp = none ∨ (cp ≠ some "O" ∧ cp ≠ some "P") then
        ⟨users, false, .errCantDelete account.perm⟩
      else
        ⟨delKey users lowNick, true, .userDeleted account.perm targetNick⟩

/-- `AUTH_METHODS` is an *array* `['NickServ']`. -/
def AUTH_METHODS : List String := ["NickServ"]

/-- JS array indexing by a string property key: only the canonical decimal
representation of an index reaches an element. -/
def jsArrayGet (l : List String) (idx : String) : Option String :=
  match idx.toNat? with
  | some n => if toString n = idx then l.get? n else none
  | none => none

/-- `userSetPermission` from the 2015 users mod.  `creatorPerm` is the
settlement of `getGlobalPerm(creator)`; `existing` mirrors the optional
boolean argument. -/
def userSetPermission2015 (users : List (String × UserAccount))
    (creatorPerm : Except AuthError (Option String))
    (defaultAuthMethod : Option String) (nick perm : String)
    (authMethod : Option String) (existing : Option Bool) : MutationResult :=
  let lowNick := jsToLower nick
  let isNew := (getKey users lowNick).isNone
  let existsErr : Option UserNotice :=
    match existing with
    | some false => if ¬ isNew then some (.errUserExists nick) else none
    | some true => if isNew then some (.errUserNotFound nick) else none
    | none => none
  match existsErr with
  | some e => ⟨users, false, e⟩
  | none =>
    match creatorPerm with
    | .error e => ⟨users, false, .errAuthFault e⟩
    | .ok cp =>
      let targetPerm : Option String :=
        if isNew then none else (getKey users lowNick).map (fun a => a.perm)
      if cp = none ∨ (cp ≠ some "O" ∧ perm ≠ "P") then
        ⟨users, false, .errCantSet perm⟩
      else
        match targetPerm with
        | some tp =>
          match permLevel (cp.getD ""), permLevel tp with
          | some lc, some lt =>
            if lc ≤ lt then ⟨users, false, .errCantModify tp⟩
            else userSetPermissionStore users defaultAuthMethod lowNick nick
              perm authMethod isNew
          | _, _ => ⟨users, false, .errInternal .typeError⟩
        | none =>
          userSetPermissionStore users defaultAuthMethod lowNick nick perm
            authMethod isNew
where
  /-- The auth-method validation and the final store-and-save steps. -/
  userSetPermissionStore (users : List (String × UserAccount))
      (defaultAuthMethod : Option String) (lowNick nick perm : String)
      (authMethod : Option String) (isNew : Bool) : MutationResult :=
    let amBad : Bool :=
      match authMethod with
      | some am => am != "" && (jsArrayGet AUTH_METHODS am).isNone
      | none => false
    if amBad then
      ⟨users, false, .errNoAuthMethod (authMethod.getD "")⟩
    else
      let stored : Option String :=
        match authMethod with
        | some am => if am ≠ "" ∧ some am ≠ defaultAuthMethod then some am
                     else none
        | none => none
      ⟨setKey users lowNick ⟨perm, stored⟩, true, .userSaved perm nick isNew⟩

/-! ## JSON-like values and lodash-style merging -/

/-- A plain JavaScript data value (the shapes that occur in mod metadata and
JSON config snapshots). -/
inductive JVal where
  | null
  | bool (b : Bool)
  | num (n : Int)
  | str (s : String)
  | obj (fields : List (String × JVal))
deriving Repr

mutual

/-- lodash `_.merge(dst, src)` for a single source: when both values are
plain objects their fields are merged recursively, otherwise the source
value wins. -/
def jmerge : JVal → JVal → JVal
  | .obj a, .obj b => .obj (jmergeInto a b)
  | _, w => w
termination_by _v w => (sizeOf w, 0)

/-- Iterates the source's fields left to right, merging each into the
accumulated destination fields. -/
def jmergeInto (a : List (String × JVal)) :
    List (String × JVal) → List (String × JVal)
  | [] => a
  | (k, vb) :: rest => jmergeInto (jassignMerge a k vb) rest
termination_by b => (sizeOf b, 1)

/-- `dst[k] = merge(dst[k], vb)`: an existing key is updated in place with
the merged value, a new key is appended. -/
def jassignMerge (a : List (String × JVal)) (k : String) (vb : JVal) :
    List (String × JVal) :=
  match a with
  | [] => [(k, vb)]
  | (k0, va) :: arest =>
    if k0 = k then (k0, jmerge va vb) :: arest
    else (k0, va) :: jassignMerge arest k vb
termination_by (sizeOf vb + 1, sizeOf a)

end

/-- JS shallow property copy, `for (k in src) dst[k] = src[k]`: the engine
behind both lodash `_.assign` (which copies into its first argument) and
objUtil.merge (which copies into a fresh object). -/
def jsAssignPairs (dst src : List (String × JVal)) : List (String × JVal) :=
  src.foldl (fun m kv => setKey m kv.1 kv.2) dst

/-! ## Mod configuration assembly (2015 ModConfig, src/unnamed/part_001) -/

/-- An I/O failure while reading the snapshot file. -/
inductive IoErr where
  | readFailed
deriving DecidableEq, Repr

/-- What `fs.readFile` + `JSON.parse` produced for the mod's snapshot file. -/
inductive SnapshotRead where
  | enoent
  | ioError
  | content (v : JVal)
deriving Repr

/-- JS truthiness of a plain data value. -/
def jsTruthy : JVal → Bool
  | .null => false
  | .bool b => b
  | .num n => n != 0
  | .str s => s != ""
  | .obj _ => true

/-- `x || {}` for an optional value (`undefined`/absent and falsy values
fall back to a fresh empty object). -/
def jsOrEmpty (v : Option JVal) : JVal :=
  match v with
  | some d => if jsTruthy d then d else .obj []
  | none => .obj []

/-- `getModConfigFile` (ModConfig lines 136-150): an ENOENT read error
resolves an empty object, any other read error rejects, and a parsed falsy
value also resolves an empty object. -/
def getModConfigFile (r : SnapshotRead) : Except IoErr JVal :=
  match r with
  | .enoent => .ok (.obj [])
  | .ioError => .error .readFailed
  | .content v => .ok (if jsTruthy v then v else .obj [])

/-- `getConfig` (ModConfig lines 112-122):
`_.merge({}, defaults || {}, config['mod_' + modId] || {})`, then the result
deep-merged under the snapshot file's contents via `_.merge({}, conf,
modFile)`.  `staticSection` is the `mod_<modId>` section of the static
config. -/
def getConfig (defaults staticSection : Option JVal) (r : SnapshotRead) :
    Except IoErr JVal :=
  let conf := jmerge (jmerge (.obj []) (jsOrEmpty defaults))
    (jsOrEmpty staticSection)
  match getModConfigFile r with
  | .error e => .error e
  | .ok modFile => .ok (jmerge (jmerge (.obj []) conf) modFile)

/-! ## Mod Manager (src/unnamed/part_000: 2015 promise version and 2013
callback version)

The registries `_commands` and `_mods` are association lists; command and
mod objects are stood for by identity tags (`Nat`), since the claims below
concern which entries the registries hold, not the objects' fields.
`declared` is the instantiated mod's `commands` object in key order. -/

/-- An event emitted on the ModManager (the id-scoped variants
`cmdloaded:x` / `modloaded:x` are the `Scoped` constructors). -/
inductive MMEvent where
  | cmdloaded (cmdId : String)
  | cmdloadedScoped (cmdId : String)
  | modloaded (modId : String)
  | modloadedScoped (modId : String)
deriving DecidableEq, Repr

/-- An error produced by `loadMod`. -/
inductive LoadErr where
  | alreadyLoaded (modId : String)
  | commandCollision (modId : String) (collisions : List String)
deriving DecidableEq, Repr

structure ModMgrState where
  commands : List (String × Nat)
  mods : List (String × Nat)
deriving DecidableEq, Repr

structure LoadOutcome where
  result : Except LoadErr Unit
  post : ModMgrState
  events : List MMEvent
  purged : Bool
deriving Repr

/-- `ModManager.prototype.loadMod` (2015), covering the already-loaded guard
(lines 199-203) and the collision-check / registration stages (lines
247-277).  Module resolution, the version check and config assembly (lines
205-246) are taken as having succeeded and their product is the `declared`
command list and the `modTag` identity of the assembled mod record.  The
collision check tests `this._commands[name]` with the *raw* declared key,
while registration stores commands under `key.toLowerCase()`.  An error
thrown inside the promise chain reaches the final `.catch`, which calls
`ModLoader.unloadMod(modId)` (modelled by `purged`) and rethrows; the
already-loaded error is thrown before the chain exists, so nothing is
purged on that path. -/
def loadMod2015 (st : ModMgrState) (modId : String)
    (declared : List (String × Nat)) (modTag : Nat) : LoadOutcome :=
  if (getKey st.mods modId).isSome then
    ⟨.error (.alreadyLoaded modId), st, [], false⟩
  else
    let collisions := (declared.map Prod.fst).filter
      (fun name => (getKey st.commands name).isSome)
    if collisions ≠ [] then
      ⟨.error (.commandCollision modId collisions), st, [], true⟩
    else
      let commands2 := declared.foldl
        (fun m kv => setKey m (jsToLower kv.1) kv.2) st.commands
      let evs := declared.foldl
        (fun es kv => es ++ [MMEvent.cmdloaded (jsToLower kv.1),
                             MMEvent.cmdloadedScoped (jsToLower kv.1)]) []
      ⟨.ok (), ⟨commands2, setKey st.mods modId modTag⟩,
        evs ++ [.modloaded modId, .modloadedScoped modId], false⟩

/-- The callback invocations and effects of one `loadMod` call in the 2013
version. -/
structure Outcome2013 where
  callbacks : List (Except LoadErr Unit)
  post : ModMgrState
  events : List MMEvent
  purged : Bool
deriving Repr

/-- `ModManager.prototype.loadMod` (2013 callback version, lines 608-686).
When the mod is already loaded, `cb` is invoked with an Error but the
function does *not* return: the Seq chain still runs, re-instantiates the
mod, and either fails the collision check (purging the still-loaded mod's
code from the loader cache) or re-registers the commands and the mod record
and invokes `cb` a second time with success.  `callbacks` records every
`cb` invocation in order. -/
def loadMod2013 (st : ModMgrState) (modId : String)
    (declared : List (String × Nat)) (modTag : Nat) : Outcome2013 :=
  let pre : List (Except LoadErr Unit) :=
    if (getKey st.mods modId).isSome then [.error (.alreadyLoaded modId)]
    else []
  let collisions := (declared.map Prod.fst).filter
    (fun name => (getKey st.commands name).isSome)
  if collisions ≠ [] then
    ⟨pre ++ [.error (.commandCollision modId collisions)], st, [], true⟩
  else
    let commands2 := declared.foldl
      (fun m kv => setKey m (jsToLower kv.1) kv.2) st.commands
    let evs := declared.foldl
      (fun es kv => es ++ [MMEvent.cmdloaded (jsToLower kv.1),
                           MMEvent.cmdloadedScoped (jsToLower kv.1)]) []
    ⟨pre ++ [.ok ()], ⟨commands2, setKey st.mods modId modTag⟩,
      evs ++ [.modloaded modId, .modloadedScoped modId], false⟩

/-! ## The MOD_DEFAULTS merge step of loadMod (claim about frame effects) -/

/-- The framework version (`require('../../package.json').version`); the
package metadata file is not among the sources and no claim depends on the
value. -/
def TOADY_VERSION : String := "0.0.0"

/-- The module-level `MOD_DEFAULTS` constant of the 2015 ModManager. -/
def MOD_DEFAULTS : List (String × JVal) :=
  [("name", .str "Unnamed Mod"),
   ("desc", .str "This module's developer should probably write a description"),
   ("version", .str TOADY_VERSION),
   ("author", .str "Unknown"),
   ("blockUnload", .bool false),
   ("blockReload", .bool false)]

/-- The field-merge step of the 2015 `loadMod` (lines 243-246):
`_.assign(MOD_DEFAULTS, modPkg, rawMod, {id: modId, config: modConf})`.
lodash `_.assign` copies into its *first* argument and returns that same
object, so the module-level `MOD_DEFAULTS` object is written to and the
produced mod record *is* that object.  The current value of the module-level
constant is threaded in as `modDefaultsState`; the result is (mod record,
`MOD_DEFAULTS` contents afterwards). -/
def loadMerge2015 (modDefaultsState : List (String × JVal))
    (modPkg rawMod : List (String × JVal)) (modId : String) (modConf : JVal) :
    List (String × JVal) × List (String × JVal) :=
  let mod := jsAssignPairs
    (jsAssignPairs (jsAssignPairs modDefaultsState modPkg) rawMod)
    [("id", .str modId), ("config", modConf)]
  (mod, mod)

/-- objUtil.merge (src/app/util/Object.js): shallow-copies every argument
into a freshly created object, leaving the arguments untouched. -/
def objUtilMerge (objs : List (List (String × JVal))) : List (String × JVal) :=
  objs.foldl jsAssignPairs []

/-- The field-merge step of the 2013 `loadMod` (initMod, lines 643-648):
`objUtil.merge(MOD_DEFAULTS, modPkg, rawMod, {id, config})` builds a fresh
object; the module-level `MOD_DEFAULTS` is not written to. -/
def loadMerge2013 (modDefaultsState : List (String × JVal))
    (modPkg rawMod : List (String × JVal)) (modId : String) (modConf : JVal) :
    List (String × JVal) × List (String × JVal) :=
  (objUtilMerge [modDefaultsState, modPkg, rawMod,
    [("id", .str modId), ("config", modConf)]], modDefaultsState)

/-! ## Mod Loader (src/app/modmanager/ModLoader.js, 2015 promise version) -/

structure ModLoaderState where
  coreModIds : Option (List String)
deriving DecidableEq, Repr

/-- `file.replace(/\.js$/, '')`: remove a trailing `.js` if present. -/
def stripJsExt (s : String) : String :=
  match s.data.reverse with
  | 's' :: 'j' :: '.' :: rest => ⟨rest.reverse⟩
  | _ => s

/-- The readdir callback of `getModIdsInDir`: drop dotfiles, strip a
trailing `.js`. -/
def modIdsInDir (listing : List String) : List String :=
  (listing.filter (fun f => f.data.head? != some '.')).map stripJsExt

/-- `getModIdsInDir` (ModLoader lines 292-307); `fsRead` is the outcome of
`fs.readdir` on the directory's contents at the time of this call. -/
def getModIdsInDir (fsRead : Except IoErr (List String)) :
    Except IoErr (List String) :=
  match fsRead with
  | .error e => .error e
  | .ok l => .ok (modIdsInDir l)

/-- `getCoreModIds` (ModLoader lines 277-285): the module-level `coreModIds`
variable caches the first successful scan of the core-mod directory and
every later call answers from the cache without touching the filesystem. -/
def getCoreModIds (fsRead : Except IoErr (List String))
    (st : ModLoaderState) : Except IoErr (List String) × ModLoaderState :=
  match st.coreModIds with
  | some ids => (.ok ids, st)
  | none =>
    match getModIdsInDir fsRead with
    | .error e => (.error e, st)
    | .ok ids => (.ok ids, { coreModIds := some ids })

/-- `getUserModIds` (ModLoader lines 313-315): a fresh directory scan on
every call; no state is read or written. -/
def getUserModIds (fsRead : Except IoErr (List String))
    (st : ModLoaderState) : Except IoErr (List String) × ModLoaderState :=
  (getModIdsInDir fsRead, st)

/-! ## Command Runner (src/app/coremods/commandrunner.js, 2015) -/

/-- A command object as declared by a mod, with the fields the dispatch
pipeline reads.  A declared argument pattern (a JS regex) is modelled by its
match function. -/
structure CmdSpec where
  id : String
  targetChannel : Bool := false
  targetNick : Bool := false
  pattern : Option (String → Option (List String)) := none
  minPermission : Option String := none

/-- A user-facing dispatch error (`err.userError === true`). -/
inductive UserErr where
  | missingTarget (cmdId : String)
  | wrongFormat (cmdId : String)
  | insufficientPermission (minPermission cmdId : String)
deriving DecidableEq, Repr

/-- Any error reaching the dispatch `.catch`. -/
inductive RunErr where
  | user (u : UserErr)
  | js (e : JsError)
  | permModMissing
deriving DecidableEq, Repr

/-- `\S+` anchored at the current position: the maximal run of non-space
characters. -/
def firstTokenL (cs : List Char) : List Char :=
  cs.takeWhile (fun c => !jsIsSpace c)

/-- `\s?`: consume at most one whitespace character. -/
def dropOneSpace (cs : List Char) : List Char :=
  match cs with
  | c :: rest => if jsIsSpace c then rest else cs
  | [] => []

/-- Group 1 of `^([#&]\S+)?\s?(.*)$`: present exactly when the text starts
with `#` or `&` followed by at least one more non-space character; `\S+` is
greedy, so the group is the whole first whitespace-delimited token. -/
def matchChanTarget (cs : List Char) : Option (List Char) :=
  match cs with
  | c1 :: c2 :: _ =>
    if (c1 == '#' || c1 == '&') && !jsIsSpace c2 then some (firstTokenL cs)
    else none
  | _ => none

/-- `splitTarget` (commandrunner.js lines 107-133), over the character list
of `cmdText` (IRC messages are single-line, so `.` and `$` behave plainly).
For a `targetNick` command the regex `^(\S+)\s?(.*)$` fails to match text
that does not begin with a non-space character, and the source then reads
`targetArgs[1]` of the null match — a TypeError. -/
def splitTarget (inChan : Bool) (cmd : CmdSpec) (cmdText : String)
    (context : String) : Except RunErr (Option String × String) :=
  let cs := cmdText.data
  if cmd.targetChannel || cmd.targetNick then
    if cmd.targetNick then
      match cs with
      | [] => .error (.js .typeError)
      | c :: _ =>
        if jsIsSpace c then .error (.js .typeError)
        else
          let tok := firstTokenL cs
          .ok (some ⟨tok⟩, ⟨dropOneSpace (cs.drop tok.length)⟩)
    else
      match matchChanTarget cs with
      | some tok => .ok (some ⟨tok⟩, ⟨dropOneSpace (cs.drop tok.length)⟩)
      | none =>
        let args : String := ⟨dropOneSpace cs⟩
        if inChan then .ok (some context, args)
        else .error (.user (.missingTarget cmd.id))
  else .ok (none, cmdText)

/-- `applyPattern` (commandrunner.js lines 41-54): with no declared pattern
the whole remaining text is the sole argument; with a pattern, a failed
match is a user-facing wrong-format error. -/
def applyPattern (cmd : CmdSpec) (cmdText : String) :
    Except RunErr (List String) :=
  match cmd.pattern with
  | none => .ok [cmdText]
  | some p =>
    match p cmdText with
    | some args => .ok args
    | none => .error (.user (.wrongFormat cmd.id))

/-- `assertPermission` (commandrunner.js lines 66-88): the Permission Engine
is reached through `hasPerm` (the users mod's `hasPermission`), present in
the registry iff `pModFound`. -/
def assertPermission (pModFound : Bool)
    (hasPerm : String → String → Option String → Except JsError Bool)
    (cmd : CmdSpec) (nick : String) (target : Option String) :
    Except RunErr Unit :=
  match cmd.minPermission with
  | none => .ok ()
  | some mp =>
    if !pModFound then .error .permModMissing
    else
      let channel := if cmd.targetChannel then target else none
      match hasPerm mp nick channel with
      | .error e => .error (.js e)
      | .ok true => .ok ()
      | .ok false => .error (.user (.insufficientPermission mp cmd.id))

/-- What one inbound message produced. -/
structure DispatchOutcome where
  /-- The handler invocation `cmd.handler(nick, to, target, args, inChan)`,
  when dispatch reached it: (nick, to, target, args). -/
  handlerArgs : Option (String × String × Option String × List String)
  /-- `client.notice(inChan ? to : nick, err.message)` relayed for a
  user-facing error: (recipient, error). -/
  notice : Option (String × UserErr)
  /-- A non-user-facing error logged as an internal failure. -/
  loggedError : Option RunErr
  /-- The `command` / `command:cmdId` events emitted before the handler. -/
  events : List String
deriving Repr

def CHAN_PREFIXES : List Char := ['#', '&']

/-- `handleMessage` (commandrunner.js lines 143-180): parse the raw text
with `^\s*(\S+)?\s*(.*)$`, gate on the trigger character and the
channel/direct context, look the command up case-insensitively, then run
splitTarget, applyPattern and assertPermission, relaying user-facing errors
as a notice to the origin and logging everything else. -/
def handleMessage (cmds : List (String × CmdSpec)) (fantasyChar : Char)
    (pModFound : Bool)
    (hasPerm : String → String → Option String → Except JsError Bool)
    (nick dest text : String) : DispatchOutcome :=
  let afterWs := text.data.dropWhile jsIsSpace
  let tok := firstTokenL afterWs
  let split1 : List Char := if tok.isEmpty then [' '] else tok
  let cmdText : String := ⟨(afterWs.drop tok.length).dropWhile jsIsSpace⟩
  let fantasy := split1.head? == some fantasyChar
  let cmdId := jsToLower (if fantasy then ⟨split1.drop 1⟩ else ⟨split1⟩)
  let inChan :=
    match dest.data.head? with
    | some c => CHAN_PREFIXES.contains c
    | none => false
  match (if (fantasy && inChan) || !inChan then getKey cmds cmdId else none)
    with
  | none => ⟨none, none, none, []⟩
  | some cmd =>
    match (do
      let ts ← splitTarget inChan cmd cmdText dest
      let args ← applyPattern cmd ts.2
      let _ ← assertPermission pModFound hasPerm cmd nick ts.1
      Except.ok (ts.1, args)) with
    | .ok (target, args) =>
      ⟨some (nick, dest, target, args), none, none,
        ["command", "command:" ++ cmdId]⟩
    | .error (.user u) =>
      ⟨none, some ((if inChan then dest else nick), u), none, []⟩
    | .error e => ⟨none, none, some e, []⟩

/-! ## Theorems -/

/-- Recognized permission levels are the values 0 through 8; in particular
none of them is below zero. -/
theorem permLevel_nonneg (a : String) (l : Int) (h : permLevel a = some l) :
    0 ≤ l := by
  unfold permLevel at h
  split at h <;> simp_all <;> omega

/-- Claim C9 (counterexample): at the concrete input (checkPerm `"x"`,
againstPerm `""`), the 2013 `permEqualOrGreater` reads `.level` of
`undefined` — a thrown TypeError, modelled `none` — rather than returning
`false`, so the claim is false of that cited version. -/
theorem permEqualOrGreater2013_unknown_throws :
    permEqualOrGreater2013 "x" "" = none ∧ permLevel "" = some 0 := ⟨rfl, rfl⟩

/-- Claim C9 (amended): the 2015 `permEqualOrGreater` is total in its first
argument — an unrecognized checkPerm is treated as level `-1`, strictly
below every recognized rank, so the comparison against any recognized rank
returns `false`; the 2013 version instead throws a TypeError on an
unrecognized first argument. -/
theorem permEqualOrGreater2015_total_first_arg (s a : String)
    (hs : permLevel s = none) (ha : (permLevel a).isSome) :
    permEqualOrGreater2015 s a = some false := by
  obtain ⟨la, hla⟩ := Option.isSome_iff_exists.mp ha
  have hge : (0 : Int) ≤ la := permLevel_nonneg a la hla
  simp only [permEqualOrGreater2015, hla, hs, Option.map_some', Option.getD]
  simp only [Option.some.injEq, decide_eq_false_iff_not]
  omega

/-- Witness for the amended C9 theorem at checkPerm `"x"`, againstPerm `"@"`. -/
theorem permEqualOrGreater2015_total_first_arg_witness :
    permLevel "x" = none ∧ (permLevel "@").isSome = true ∧
      permEqualOrGreater2015 "x" "@" = some false :=
  ⟨rfl, rfl, permEqualOrGreater2015_total_first_arg "x" "@" rfl rfl⟩

/-- Claim C3 (code defects): the 2015 `hasPermission` throws a TypeError on
every invocation, including the well-formed `hasPermission('@', 'bob',
'#chan')` (its promise chain invokes `.this`, which is not a Promise
method), instead of resolving a Boolean; and the 2013 version skips an
empty-string channel rank (it is falsy), so a channel member of rank `''`
fails a required rank `''` even though level `'' ≥ ''` holds — against the
claimed if-and-only-if. -/
theorem hasPermission_code_defects :
    hasPermission2015 ⟨[], fun _ => false, [("#chan", [("bob", "")])]⟩
        "@" "bob" (some "#chan") = .error .typeError ∧
    hasPermission2013 ⟨[], fun _ => false, [("#chan", [("bob", "")])]⟩
        "" "bob" (some "#chan") = .ok false ∧
    getPermOnChannel2013 ⟨[], fun _ => false, [("#chan", [("bob", "")])]⟩
        "bob" "#chan" = some "" ∧
    permEqualOrGreater2013 "" "" = some true :=
  ⟨rfl, rfl, rfl, rfl⟩

/-- Claim C5 (code defects): after `isAuthorized('Bob')` (timer 0 scheduled)
is answered by a matching NickServ notice, the request's promise settles —
but timer 0 is still active, because the handler calls `clearTimeout` on
`pendingNicks.timeout` rather than on the entry's timer; and when no answer
arrives the timer callback *rejects* the promise with a timeout Error,
which `getGlobalPerm` (2015) propagates to its caller instead of resolving
"no permission". -/
theorem nickserv_timeout_and_timer_defects :
    (handleNotice2015 (isAuthorized2015 nickServInit "Bob") "NickServ" "Bob"
      "3").settled = [("bob", .ok false)] ∧
    (handleNotice2015 (isAuthorized2015 nickServInit "Bob") "NickServ" "Bob"
      "3").timersActive = [0] ∧
    (fireTimeout2015 (isAuthorized2015 nickServInit "Bob") "bob" 0).settled
      = [("bob", .error .timedOut)] ∧
    getGlobalPerm2015 [("bob", "P")] [] (.error .timedOut) "Bob"
      = (.error .timedOut, []) :=
  ⟨rfl, rfl, rfl, rfl⟩

/-- Claim C8 (code defect): the 2015 `deleteUser` guard tests the *caller's*
perm in both halves, so a PowerUser (`P`, level 6) successfully deletes an
Owner (`O`, level 8) — the caller's rank does not dominate the removed rank
— while a SuperUser (`S`) cannot delete even a PowerUser; and
`userSetPermission` lets a PowerUser create another `P` account (equal, not
dominated).  Persistence and notice behavior are as the code shows. -/
theorem deleteUser_rank_check_defect :
    deleteUser2015 [("alice", ⟨"O", none⟩)] (.ok (some "P")) "Alice"
      = ⟨[], true, .userDeleted "O" "Alice"⟩ ∧
    deleteUser2015 [("carol", ⟨"P", none⟩)] (.ok (some "S")) "carol"
      = ⟨[("carol", ⟨"P", none⟩)], false, .errCantDelete "P"⟩ ∧
    userSetPermission2015 [] (.ok (some "P")) (some "NickServ") "bob" "P"
      none (some false)
      = ⟨[("bob", ⟨"P", none⟩)], true, .userSaved "P" "bob" true⟩ ∧
    (permLevel "P").getD 0 < (permLevel "O").getD 0 :=
  ⟨rfl, rfl, rfl, by decide⟩

/-- Claim C10 (code defect): the 2015 merge step is
`_.assign(MOD_DEFAULTS, ...)`, which writes into the module-level
`MOD_DEFAULTS` object: after loading mod `a` (declaring
`blockUnload: true`) and then mod `b` (declaring nothing), `b`'s record
carries `blockUnload: true` and the module-level defaults are no longer
pristine; the 2013 `objUtil.merge` builds a fresh object and leaves
`MOD_DEFAULTS` untouched, giving `b` the pristine `blockUnload: false`. -/
theorem loadMod_mutates_MOD_DEFAULTS :
    (getKey (loadMerge2015 (loadMerge2015 MOD_DEFAULTS []
        [("blockUnload", .bool true)] "a" .null).2 [] [] "b" .null).1
      "blockUnload" = some (.bool true)) ∧
    (getKey (loadMerge2015 (loadMerge2015 MOD_DEFAULTS []
        [("blockUnload", .bool true)] "a" .null).2 [] [] "b" .null).2
      "blockUnload" = some (.bool true)) ∧
    getKey MOD_DEFAULTS "blockUnload" = some (.bool false) ∧
    (loadMerge2013 (loadMerge2013 MOD_DEFAULTS []
        [("blockUnload", .bool true)] "a" .null).2 [] [] "b" .null).2
      = MOD_DEFAULTS ∧
    (getKey (loadMerge2013 (loadMerge2013 MOD_DEFAULTS []
        [("blockUnload", .bool true)] "a" .null).2 [] [] "b" .null).1
      "blockUnload" = some (.bool false)) :=
  ⟨rfl, rfl, rfl, rfl, rfl⟩

/-- Claim C2 (code defect, 2013 version): with mod `m` already loaded
(record tag 1) and declaring no commands, `loadMod('m')` first invokes the
callback with the already-loaded Error, but — the function does not return —
then proceeds, re-registers the mod (the record is replaced by the new
instantiation, tag 2), emits `modloaded` events, and invokes the callback a
second time with success.  The 2015 version throws before the chain starts:
error, registry untouched, no events, no purge. -/
theorem loadMod2013_alreadyLoaded_continues :
    (loadMod2013 ⟨[], [("m", 1)]⟩ "m" [] 2).callbacks
      = [.error (.alreadyLoaded "m"), .ok ()] ∧
    (loadMod2013 ⟨[], [("m", 1)]⟩ "m" [] 2).events
      = [.modloaded "m", .modloadedScoped "m"] ∧
    (loadMod2013 ⟨[], [("m", 1)]⟩ "m" [] 2).post.mods = [("m", 2)] ∧
    loadMod2015 ⟨[], [("m", 1)]⟩ "m" [] 2
      = ⟨.error (.alreadyLoaded "m"), ⟨[], [("m", 1)]⟩, [], false⟩ :=
  ⟨rfl, rfl, rfl, rfl⟩

/-- Claim C1 (counterexample): with `foo` registered (command tag 1, from a
first mod), loading a second mod that declares `FOO` — a collision after
case-folding — succeeds: the collision check compares the raw declared key
against the lowercased registry keys, finds nothing, and registration then
lowercases `FOO` and silently replaces the first mod's command (tag 2). -/
theorem loadMod_caseFolded_collision_not_detected :
    (loadMod2015 ⟨[("foo", 1)], [("m1", 10)]⟩ "m2" [("FOO", 2)] 20).result
      = .ok () ∧
    (loadMod2015 ⟨[("foo", 1)], [("m1", 10)]⟩ "m2" [("FOO", 2)] 20).post
      = ⟨[("foo", 2)], [("m1", 10), ("m2", 20)]⟩ ∧
    (loadMod2015 ⟨[("foo", 1)], [("m1", 10)]⟩ "m2" [("FOO", 2)] 20).purged
      = false ∧
    jsToLower "FOO" = "foo" :=
  ⟨rfl, rfl, rfl, rfl⟩

/-- Claim C1 (amended): when some declared command id *literally* equals a
key already present in the registry, `loadMod` (both versions) fails with
the collision error listing exactly the colliding ids in declaration order,
leaves the registry equal to its pre-call state, emits no events, and
purges the mod's code from the loader cache. -/
theorem loadMod_literal_collision_allOrNothing (st : ModMgrState)
    (modId : String) (declared : List (String × Nat)) (modTag : Nat)
    (h0 : getKey st.mods modId = none)
    (h : (declared.map Prod.fst).filter
      (fun n => (getKey st.commands n).isSome) ≠ []) :
    loadMod2015 st modId declared modTag =
      ⟨.error (.commandCollision modId ((declared.map Prod.fst).filter
        (fun n => (getKey st.commands n).isSome))), st, [], true⟩ ∧
    loadMod2013 st modId declared modTag =
      ⟨[.error (.commandCollision modId ((declared.map Prod.fst).filter
        (fun n => (getKey st.commands n).isSome)))], st, [], true⟩ := by
  constructor
  · unfold loadMod2015
    rw [h0]
    simp [h]
  · unfold loadMod2013
    rw [h0]
    simp [h]

/-- Witness for the amended C1 theorem: a second mod declaring the
already-registered id `foo` fails all-or-nothing with the collision listed
and the code purged. -/
theorem loadMod_literal_collision_allOrNothing_witness :
    loadMod2015 ⟨[("foo", 1)], [("m1", 10)]⟩ "m2" [("foo", 2)] 20 =
      ⟨.error (.commandCollision "m2" ["foo"]), ⟨[("foo", 1)], [("m1", 10)]⟩,
        [], true⟩ ∧
    loadMod2013 ⟨[("foo", 1)], [("m1", 10)]⟩ "m2" [("foo", 2)] 20 =
      ⟨[.error (.commandCollision "m2" ["foo"])], ⟨[("foo", 1)], [("m1", 10)]⟩,
        [], true⟩ :=
  loadMod_literal_collision_allOrNothing ⟨[("foo", 1)], [("m1", 10)]⟩ "m2"
    [("foo", 2)] 20 rfl (by decide)

/-- Claim C7: once the first call to `getCoreModIds` has succeeded with
`ids`, every later call returns that same `ids` and the same state, no
matter what the directory scan would now produce (the core set is a
boot-time snapshot); `getUserModIds` instead answers from the directory
scan handed to that very call, reading and writing no state. -/
theorem coreModIds_cached_userModIds_fresh
    (fs1 : Except IoErr (List String)) (st1 : ModLoaderState)
    (ids : List String)
    (h : getCoreModIds fs1 ⟨none⟩ = (.ok ids, st1)) :
    ∀ fs2 : Except IoErr (List String),
      getCoreModIds fs2 st1 = (.ok ids, st1) ∧
      getUserModIds fs2 st1 = (getModIdsInDir fs2, st1) := by
  intro fs2
  have hst : st1 = ⟨some ids⟩ := by
    unfold getCoreModIds at h
    cases hfs : getModIdsInDir fs1 with
    | error e => rw [hfs] at h; simp at h
    | ok l =>
      rw [hfs] at h
      simp only [Prod.mk.injEq] at h
      obtain ⟨h1, h2⟩ := h
      cases h1
      exact h2.symm
  subst hst
  exact ⟨rfl, rfl⟩

/-- Witness for C7: the first scan finds `users.js`, `help.js` and a
dotfile; a later call sees a changed directory yet still answers the
snapshot, while the user-mod enumeration reflects the new contents. -/
theorem coreModIds_cached_userModIds_fresh_witness :
    getCoreModIds (.ok ["newmod.js"]) ⟨some ["users", "help"]⟩
      = (.ok ["users", "help"], ⟨some ["users", "help"]⟩) ∧
    getUserModIds (.ok ["newmod.js"]) ⟨some ["users", "help"]⟩
      = (.ok ["newmod"], ⟨some ["users", "help"]⟩) :=
  coreModIds_cached_userModIds_fresh (.ok ["users.js", "help.js", ".git"])
    ⟨some ["users", "help"]⟩ ["users", "help"] rfl (.ok ["newmod.js"])

/-! ### Association-list and merge lemmas -/

theorem getKey_cons {α : Type} (k0 : String) (v0 : α)
    (rest : List (String × α)) (k : String) :
    getKey ((k0, v0) :: rest) k = if k0 = k then some v0 else getKey rest k := by
  by_cases h : k0 = k <;> simp [getKey, List.find?_cons, h]

theorem getKey_eq_none_of_not_mem {α : Type} (m : List (String × α))
    (k : String) (h : k ∉ m.map Prod.fst) : getKey m k = none := by
  induction m with
  | nil => rfl
  | cons hd tl ih =>
    obtain ⟨k0, v0⟩ := hd
    simp only [List.map_cons, List.mem_cons, not_or] at h
    rw [getKey_cons, if_neg (Ne.symm h.1)]
    exact ih h.2

theorem jassignMerge_getKey_same (a : List (String × JVal)) (k : String)
    (vb : JVal) :
    getKey (jassignMerge a k vb) k =
      some (match getKey a k with
            | some va => jmerge va vb
            | none => vb) := by
  induction a with
  | nil => simp [jassignMerge, getKey_cons, getKey]
  | cons hd tl ih =>
    obtain ⟨k0, va⟩ := hd
    by_cases h : k0 = k
    · subst h
      simp [jassignMerge, getKey_cons]
    · simp [jassignMerge, h, getKey_cons, ih]

theorem jassignMerge_getKey_other (a : List (String × JVal)) (k : String)
    (vb : JVal) (k2 : String) (h : k2 ≠ k) :
    getKey (jassignMerge a k vb) k2 = getKey a k2 := by
  induction a with
  | nil => simp [jassignMerge, getKey_cons, getKey, Ne.symm h]
  | cons hd tl ih =>
    obtain ⟨k0, va⟩ := hd
    by_cases hk : k0 = k
    · subst hk
      simp [jassignMerge, getKey_cons, Ne.symm h]
    · simp only [jassignMerge, if_neg hk]
      by_cases h2 : k0 = k2 <;> simp [getKey_cons, h2, ih]

theorem jassignMerge_keys (a : List (String × JVal)) (k : String) (vb : JVal) :
    (jassignMerge a k vb).map Prod.fst =
      if k ∈ a.map Prod.fst then a.map Prod.fst
      else a.map Prod.fst ++ [k] := by
  induction a with
  | nil => simp [jassignMerge]
  | cons hd tl ih =>
    obtain ⟨k0, va⟩ := hd
    by_cases h : k0 = k
    · subst h
      simp [jassignMerge]
    · simp only [jassignMerge, if_neg h, List.map_cons, List.mem_cons, ih]
      by_cases h2 : k ∈ tl.map Prod.fst <;>
        simp [h2, Ne.symm h]

theorem jassignMerge_keys_nodup (a : List (String × JVal)) (k : String)
    (vb : JVal) (h : (a.map Prod.fst).Nodup) :
    ((jassignMerge a k vb).map Prod.fst).Nodup := by
  rw [jassignMerge_keys]
  by_cases hm : k ∈ a.map Prod.fst
  · simpa [hm] using h
  · simp only [if_neg hm, List.nodup_append, List.nodup_cons]
    exact ⟨h, by simp, by simpa [List.disjoint_singleton] using hm⟩

theorem jmergeInto_keys_nodup (s : List (String × JVal)) :
    ∀ d : List (String × JVal), (d.map Prod.fst).Nodup →
      ((jmergeInto d s).map Prod.fst).Nodup := by
  induction s with
  | nil => intro d hd; simpa [jmergeInto] using hd
  | cons pair tl ih =>
    intro d hd
    obtain ⟨k, vb⟩ := pair
    simp only [jmergeInto]
    exact ih _ (jassignMerge_keys_nodup d k vb hd)

theorem jmergeInto_getKey (s : List (String × JVal)) (k : String)
    (hs : (s.map Prod.fst).Nodup) :
    ∀ d : List (String × JVal),
      getKey (jmergeInto d s) k =
        match getKey s k with
        | none => getKey d k
        | some vb =>
          some (match getKey d k with
                | some va => jmerge va vb
                | none => vb) := by
  induction s with
  | nil => intro d; simp [jmergeInto, getKey]
  | cons pair tl ih =>
    intro d
    obtain ⟨k0, vb0⟩ := pair
    simp only [List.map_cons, List.nodup_cons] at hs
    obtain ⟨hk0, htl⟩ := hs
    simp only [jmergeInto]
    rw [ih htl]
    by_cases h : k0 = k
    · subst h
      have hnone : getKey tl k0 = none := by
        apply getKey_eq_none_of_not_mem
        exact hk0
      rw [hnone, getKey_cons, if_pos rfl, jassignMerge_getKey_same]
    · rw [getKey_cons, if_neg h,
        jassignMerge_getKey_other d k0 vb0 k (Ne.symm h)]

theorem jassignMerge_not_mem (a : List (String × JVal)) (k : String)
    (vb : JVal) (h : k ∉ a.map Prod.fst) :
    jassignMerge a k vb = a ++ [(k, vb)] := by
  induction a with
  | nil => simp [jassignMerge]
  | cons hd tl ih =>
    obtain ⟨k0, va⟩ := hd
    simp only [List.map_cons, List.mem_cons, not_or] at h
    simp only [jassignMerge, if_neg (Ne.symm h.1), List.cons_append,
      List.cons.injEq, true_and]
    exact ih h.2

theorem jmergeInto_disjoint (s : List (String × JVal))
    (hs : (s.map Prod.fst).Nodup) :
    ∀ d : List (String × JVal),
      (∀ k ∈ s.map Prod.fst, k ∉ d.map Prod.fst) →
      jmergeInto d s = d ++ s := by
  induction s with
  | nil => intro d _; simp [jmergeInto]
  | cons pair tl ih =>
    intro d hdisj
    obtain ⟨k0, vb0⟩ := pair
    simp only [List.map_cons, List.nodup_cons] at hs
    obtain ⟨hk0, htl⟩ := hs
    have h0 : k0 ∉ d.map Prod.fst := hdisj k0 (by simp)
    simp only [jmergeInto]
    rw [jassignMerge_not_mem d k0 vb0 h0]
    rw [ih htl (d ++ [(k0, vb0)]) ?_]
    · simp
    · intro k hk
      simp only [List.map_append, List.mem_append, List.map_cons,
        List.map_nil, List.mem_singleton, not_or]
      refine ⟨hdisj k (by simp [hk]), ?_⟩
      rintro rfl
      exact hk0 hk

theorem jmergeInto_nil_left (s : List (String × JVal))
    (hs : (s.map Prod.fst).Nodup) : jmergeInto [] s = s := by
  simpa using jmergeInto_disjoint s hs [] (by simp)

theorem jmerge_empty_left (s : List (String × JVal))
    (hs : (s.map Prod.fst).Nodup) :
    jmerge (JVal.obj []) (JVal.obj s) = JVal.obj s := by
  simp only [jmerge]
  rw [jmergeInto_nil_left s hs]

theorem jmerge_nonobj_right (va vb : JVal) (h : ∀ f, vb ≠ JVal.obj f) :
    jmerge va vb = vb := by
  cases va <;> cases vb <;> try simp [jmerge]
  all_goals exact (h _ rfl).elim

/-- Claim C6: the config object produced for a mod load equals the mod's
declared defaults deep-merged with the static config section, deep-merged
with the persisted JSON snapshot, the snapshot winning on every conflicting
non-object key; and a missing snapshot file behaves exactly like an empty
snapshot object, with no error raised. -/
theorem getConfig_merge_spec (d s j : List (String × JVal))
    (hd : (d.map Prod.fst).Nodup) (hj : (j.map Prod.fst).Nodup) :
    getConfig (some (.obj d)) (some (.obj s)) (.content (.obj j))
      = .ok (jmerge (jmerge (.obj d) (.obj s)) (.obj j)) ∧
    getConfig (some (.obj d)) (some (.obj s)) .enoent
      = .ok (jmerge (jmerge (.obj d) (.obj s)) (.obj [])) ∧
    getConfig (some (.obj d)) (some (.obj s)) .enoent
      = getConfig (some (.obj d)) (some (.obj s)) (.content (.obj [])) ∧
    (∀ k vb, getKey j k = some vb → (∀ f, vb ≠ JVal.obj f) →
      getConfig (some (.obj d)) (some (.obj s)) (.content (.obj j))
        = .ok (.obj (jmergeInto (jmergeInto d s) j)) ∧
      getKey (jmergeInto (jmergeInto d s) j) k = some vb) := by
  have h1 : jmerge (JVal.obj []) (JVal.obj d) = JVal.obj d :=
    jmerge_empty_left d hd
  have h2 : jmerge (JVal.obj d) (JVal.obj s) = JVal.obj (jmergeInto d s) := by
    simp only [jmerge]
  have hC : ((jmergeInto d s).map Prod.fst).Nodup :=
    jmergeInto_keys_nodup s d hd
  have h3 : jmerge (JVal.obj []) (JVal.obj (jmergeInto d s))
      = JVal.obj (jmergeInto d s) := jmerge_empty_left _ hC
  have h4 : ∀ b, jmerge (JVal.obj (jmergeInto d s)) (JVal.obj b)
      = JVal.obj (jmergeInto (jmergeInto d s) b) := fun b => by
    simp only [jmerge]
  have e1 : getConfig (some (.obj d)) (some (.obj s)) (.content (.obj j))
      = .ok (.obj (jmergeInto (jmergeInto d s) j)) := by
    unfold getConfig getModConfigFile jsOrEmpty
    simp only [jsTruthy, if_true]
    rw [h1, h2, h3, h4]
  have e2 : getConfig (some (.obj d)) (some (.obj s)) .enoent
      = .ok (.obj (jmergeInto (jmergeInto d s) [])) := by
    unfold getConfig getModConfigFile jsOrEmpty
    simp only [jsTruthy, if_true]
    rw [h1, h2, h3, h4]
  refine ⟨?_, ?_, ?_, ?_⟩
  · rw [e1, h2, h4]
  · rw [e2, h2, h4]
  · rw [e2]
    have e3 : getConfig (some (.obj d)) (some (.obj s)) (.content (.obj []))
        = .ok (.obj (jmergeInto (jmergeInto d s) [])) := by
      unfold getConfig getModConfigFile jsOrEmpty
      simp only [jsTruthy, if_true]
      rw [h1, h2, h3, h4]
    rw [e3]
  · intro k vb hkv hno
    refine ⟨e1, ?_⟩
    rw [jmergeInto_getKey j k hj, hkv]
    cases hCk : getKey (jmergeInto d s) k with
    | none => rfl
    | some va =>
      show some (jmerge va vb) = some vb
      rw [jmerge_nonobj_right va vb hno]

/-- Witness for C6 at a concrete configuration: defaults
`{a: 1, nested: {x: 1}}`, static section `{a: 2, b: 3}`, snapshot
`{a: 9}`; the snapshot's `a` wins in the assembled config. -/
theorem getConfig_merge_spec_witness :
    (getConfig
        (some (.obj [("a", .num 1), ("nested", .obj [("x", .num 1)])]))
        (some (.obj [("a", .num 2), ("b", .num 3)]))
        (.content (.obj [("a", .num 9)]))
      = .ok (jmerge
          (jmerge (.obj [("a", .num 1), ("nested", .obj [("x", .num 1)])])
            (.obj [("a", .num 2), ("b", .num 3)]))
          (.obj [("a", .num 9)]))) ∧
    getKey (jmergeInto
        (jmergeInto [("a", .num 1), ("nested", .obj [("x", .num 1)])]
          [("a", .num 2), ("b", .num 3)])
        [("a", .num 9)]) "a" = some (.num 9) :=
  ⟨(getConfig_merge_spec
      [("a", .num 1), ("nested", .obj [("x", .num 1)])]
      [("a", .num 2), ("b", .num 3)] [("a", .num 9)]
      (by decide) (by decide)).1,
   ((getConfig_merge_spec
      [("a", .num 1), ("nested", .obj [("x", .num 1)])]
      [("a", .num 2), ("b", .num 3)] [("a", .num 9)]
      (by decide) (by decide)).2.2.2 "a" (.num 9) rfl
      (fun _ h => JVal.noConfusion h)).2⟩

/-! ### Token-splitting lemmas -/

theorem takeWhile_append_stop {α : Type} (p : α → Bool) (l1 : List α) (c : α)
    (l2 : List α) (h1 : ∀ x ∈ l1, p x = true) (hc : p c = false) :
    (l1 ++ c :: l2).takeWhile p = l1 := by
  induction l1 with
  | nil => simp [List.takeWhile_cons, hc]
  | cons a tl ih =>
    have ha : p a = true := h1 a (by simp)
    simp only [List.cons_append, List.takeWhile_cons, ha, if_true,
      List.cons.injEq, true_and]
    exact ih (fun x hx => h1 x (by simp [hx]))

theorem firstTokenL_append (tokL : List Char) (restL : List Char)
    (h1 : ∀ c ∈ tokL, jsIsSpace c = false) :
    firstTokenL (tokL ++ ' ' :: restL) = tokL := by
  unfold firstTokenL
  exact takeWhile_append_stop _ tokL ' ' restL
    (fun x hx => by simp [h1 x hx]) (by decide)

/-- Claim C4: for a `targetChannel` command, a first whitespace-delimited
argument beginning with `#` or `&` is extracted as the target and removed
from the argument text (the claim's own example `!say #general hello`
in-channel gives target `#general`, args `hello`); with no such first
argument, an in-channel message defaults the target to its channel, and a
direct message fails with the user-facing missing-target error, the notice
going to the invoker and the handler never being invoked. -/
theorem splitTarget_targetChannel_spec :
    (∀ nick : String,
      handleMessage [("say", ⟨"say", true, false, none, none⟩)] '!' true
        (fun _ _ _ => .ok true) nick "#room" "!say #general hello"
        = ⟨some (nick, "#room", some "#general", ["hello"]), none, none,
           ["command", "command:say"]⟩) ∧
    (∀ (inChan : Bool) (cmd : CmdSpec) (ctx : String) (c1 c2 : Char)
        (t restL : List Char),
      cmd.targetChannel = true → cmd.targetNick = false →
      (c1 = '#' ∨ c1 = '&') → jsIsSpace c2 = false →
      (∀ c ∈ t, jsIsSpace c = false) →
      splitTarget inChan cmd ⟨(c1 :: c2 :: t) ++ ' ' :: restL⟩ ctx
        = .ok (some ⟨c1 :: c2 :: t⟩, ⟨restL⟩)) ∧
    (∀ (cmd : CmdSpec) (ctx : String) (cs : List Char),
      cmd.targetChannel = true → cmd.targetNick = false →
      (∀ c, cs.head? = some c → c ≠ '#' ∧ c ≠ '&' ∧ jsIsSpace c = false) →
      splitTarget true cmd ⟨cs⟩ ctx = .ok (some ctx, ⟨cs⟩)) ∧
    (∀ (cmd : CmdSpec) (ctx : String) (cs : List Char),
      cmd.targetChannel = true → cmd.targetNick = false →
      (∀ c, cs.head? = some c → c ≠ '#' ∧ c ≠ '&' ∧ jsIsSpace c = false) →
      splitTarget false cmd ⟨cs⟩ ctx
        = .error (.user (.missingTarget cmd.id))) ∧
    (∀ nick : String,
      handleMessage [("say", ⟨"say", true, false, none, none⟩)] '!' true
        (fun _ _ _ => .ok true) nick "toady" "say hello"
        = ⟨none, some (nick, .missingTarget "say"), none, []⟩) := by
  have hmatch : ∀ (c1 c2 : Char) (t restL : List Char),
      (c1 = '#' ∨ c1 = '&') → jsIsSpace c2 = false →
      (∀ c ∈ t, jsIsSpace c = false) →
      matchChanTarget ((c1 :: c2 :: t) ++ ' ' :: restL)
        = some (c1 :: c2 :: t) := by
    intro c1 c2 t restL hc1 hc2 ht
    have hcond : ((c1 == '#' || c1 == '&') && !jsIsSpace c2) = true := by
      rcases hc1 with rfl | rfl <;> simp [hc2]
    have htok : firstTokenL ((c1 :: c2 :: t) ++ ' ' :: restL)
        = c1 :: c2 :: t := by
      apply firstTokenL_append
      intro c hc
      rcases List.mem_cons.mp hc with rfl | hc'
      · rcases hc1 with rfl | rfl <;> decide
      · rcases List.mem_cons.mp hc' with rfl | h
        · exact hc2
        · exact ht c h
    have hstep : matchChanTarget ((c1 :: c2 :: t) ++ ' ' :: restL) =
        if (c1 == '#' || c1 == '&') && !jsIsSpace c2 then
          some (firstTokenL ((c1 :: c2 :: t) ++ ' ' :: restL))
        else none := rfl
    rw [hstep, if_pos hcond, htok]
  have hnomatch : ∀ cs : List Char,
      (∀ c, cs.head? = some c → c ≠ '#' ∧ c ≠ '&' ∧ jsIsSpace c = false) →
      matchChanTarget cs = none := by
    intro cs hcs
    match cs with
    | [] => rfl
    | [c] => rfl
    | c1 :: c2 :: rest =>
      obtain ⟨hh1, hh2, _⟩ := hcs c1 rfl
      simp [matchChanTarget, hh1, hh2]
  refine ⟨fun nick => rfl, ?_, ?_, ?_, fun nick => rfl⟩
  · intro inChan cmd ctx c1 c2 t restL hTC hTN hc1 hc2 ht
    have htok := hmatch c1 c2 t restL hc1 hc2 ht
    simp only [splitTarget, hTC, hTN, Bool.true_or, if_true, Bool.false_eq_true,
      if_false, String.data]
    rw [htok]
    have hdrop : ((c1 :: c2 :: t) ++ ' ' :: restL).drop
        (c1 :: c2 :: t).length = ' ' :: restL :=
      List.drop_left (c1 :: c2 :: t) (' ' :: restL)
    simp only [hdrop]
    simp [dropOneSpace, jsIsSpace]
  · intro cmd ctx cs hTC hTN hcs
    have hnm := hnomatch cs hcs
    have hd1 : dropOneSpace cs = cs := by
      match cs, hcs with
      | [], _ => rfl
      | c :: rest, hcs =>
        obtain ⟨_, _, hsp⟩ := hcs c rfl
        simp [dropOneSpace, hsp]
    simp only [splitTarget, hTC, hTN, Bool.true_or, if_true,
      Bool.false_eq_true, if_false, String.data]
    rw [hnm, hd1]
  · intro cmd ctx cs hTC hTN hcs
    have hnm := hnomatch cs hcs
    simp only [splitTarget, hTC, hTN, Bool.true_or, if_true,
      Bool.false_eq_true, if_false, String.data]
    rw [hnm]

/-- Witness for C4 at the claim's own example and its direct-message
variant. -/
theorem splitTarget_targetChannel_spec_witness :
    (handleMessage [("say", ⟨"say", true, false, none, none⟩)] '!' true
        (fun _ _ _ => .ok true) "alice" "#room" "!say #general hello"
      = ⟨some ("alice", "#room", some "#general", ["hello"]), none, none,
         ["command", "command:say"]⟩) ∧
    splitTarget true ⟨"say", true, false, none, none⟩ "#general hello" "#room"
      = .ok (some "#general", "hello") ∧
    splitTarget true ⟨"say", true, false, none, none⟩ "hello" "#room"
      = .ok (some "#room", "hello") ∧
    splitTarget false ⟨"say", true, false, none, none⟩ "hello" "toady"
      = .error (.user (.missingTarget "say")) ∧
    handleMessage [("say", ⟨"say", true, false, none, none⟩)] '!' true
        (fun _ _ _ => .ok true) "alice" "toady" "say hello"
      = ⟨none, some ("alice", .missingTarget "say"), none, []⟩ :=
  ⟨splitTarget_targetChannel_spec.1 "alice",
   splitTarget_targetChannel_spec.2.1 true ⟨"say", true, false, none, none⟩
     "#room" '#' 'g' "eneral".data "hello".data rfl rfl (Or.inl rfl)
     (by decide) (by decide),
   splitTarget_targetChannel_spec.2.2.1 ⟨"say", true, false, none, none⟩
     "#room" "hello".data rfl rfl
     (fun c hc => by
       rw [show ("hello".data.head? = some 'h') from rfl] at hc
       injection hc with h
       subst h
       decide),
   splitTarget_targetChannel_spec.2.2.2.1 ⟨"say", true, false, none, none⟩
     "toady" "hello".data rfl rfl
     (fun c hc => by
       rw [show ("hello".data.head? = some 'h') from rfl] at hc
       injection hc with h
       subst h
       decide),
   splitTarget_targetChannel_spec.2.2.2.2 "alice"⟩

end Toady
